import Mathlib

/-!
Shallow embedding of the session/message orchestration, progress polling,
retry, error-classification and file-reference extraction logic of the
React chat client (`useChat.ts` hook and the API client module).

Pure functions of the TypeScript source become Lean functions; the stateful
hook becomes explicit state passing over a `ChatState` record, and the
timer-based polling becomes a step relation over a `PollState` record.
Network calls are modelled by passing their outcome (`Except`) as an
explicit argument.
-/

set_option maxRecDepth 4000

namespace Chat

/-! ## String helpers (JS `includes`, `toLowerCase`, prefix tests) -/

/-- Test `isPrefixL p s` : the char list `p` is a prefix of `s`. -/
def isPrefixL : List Char → List Char → Bool
  | [], _ => true
  | _ :: _, [] => false
  | a :: as, b :: bs => a == b && isPrefixL as bs

/-- Test `containsSubL s p` : the char list `s` has `p` as a contiguous sublist
(JS `String.prototype.includes`). -/
def containsSubL : List Char → List Char → Bool
  | [], p => p.isEmpty
  | c :: rest, p => isPrefixL p (c :: rest) || containsSubL rest p

/-- JS `s.includes(pat)`. -/
def strContains (s pat : String) : Bool :=
  containsSubL s.data pat.data

/-- JS `s.toLowerCase()` (ASCII behaviour, matching the messages involved). -/
def lowerStr (s : String) : String :=
  String.mk (s.data.map Char.toLower)

/-- JS `s.startsWith(pat)`. -/
def strStartsWith (s pat : String) : Bool :=
  isPrefixL pat.data s.data

/-- JS `s.trim()`: strip leading and trailing whitespace. -/
def jsTrim (s : String) : String :=
  String.mk (((s.data.dropWhile Char.isWhitespace).reverse.dropWhile
    Char.isWhitespace).reverse)

/-! ## Data model (`types.ts`) -/

/-- Embeds `ToolCall` from `types.ts` (the `input` record is irrelevant to the
verified logic and is kept as an opaque string map omitted here). -/
structure ToolCall where
  name : String
  output : Option String
  status : Option String
deriving Repr, DecidableEq

/-- Embeds `Message` from `types.ts`; the optional `isStreaming` marker is
modelled with absent = `false` (JS truthiness of `undefined`). -/
structure Message where
  role : String
  content : String
  timestamp : Option String
  tool_calls : Option (List ToolCall)
  isStreaming : Bool
deriving Repr, DecidableEq

/-- Embeds `Session` from `types.ts`. -/
structure Session where
  id : String
  created_at : String
  message_count : Nat
  workspace_path : Option String
  active_repo : Option String
deriving Repr, DecidableEq

/-- Embeds `ProgressStep` from `types.ts`. -/
structure ProgressStep where
  step : String
  details : Option String
  timestamp : Option String
deriving Repr, DecidableEq

/-- Embeds `ProgressData` from `types.ts`; `status` is one of
`not_found | in_progress | completed | error`. -/
structure ProgressData where
  status : String
  current_step : Option String
  iteration : Option Nat
  max_iterations : Option Nat
  steps : Option (List ProgressStep)
  error : Option String
deriving Repr, DecidableEq

/-- A bare progress value carrying only a status (the sentinel
`{ status: 'not_found' }` built by `getProgress` on fetch failure). -/
def ProgressData.ofStatus (s : String) : ProgressData :=
  { status := s, current_step := none, iteration := none,
    max_iterations := none, steps := none, error := none }

/-- Embeds `ChatRequest` from `types.ts`. -/
structure ChatRequest where
  message : String
  session_id : Option String
  workspace_path : Option String
deriving Repr, DecidableEq

/-- Embeds `ChatResponse` from `types.ts`. -/
structure ChatResponse where
  session_id : String
  response : String
  tool_calls : List ToolCall
  requires_approval : Bool
  workspace_path : Option String
deriving Repr, DecidableEq

/-! ## Progress fetching and the polling loop

`getProgress` (api client): a failing fetch is mapped to the
`not_found` sentinel.  The polling loop of `useChat.ts`
(`startProgressPolling` / `stopProgressPolling` / the `poll` closure) is a
transition system over `PollState`: `intervals` is the set of live
`window.setInterval` handles, `intervalRef` is `progressIntervalRef.current`,
and `progress` is the visible progress state. -/

/-- Embeds `getProgress` from the api client: returns the fetched `ProgressData`,
or the `not_found` sentinel when the request fails. -/
def getProgress (fetch : Except String ProgressData) : ProgressData :=
  match fetch with
  | .ok d => d
  | .error _ => ProgressData.ofStatus "not_found"

/-- State of the timer machinery around `progressIntervalRef`. -/
structure PollState where
  intervals : List Nat
  intervalRef : Option Nat
  nextHandle : Nat
  progress : Option ProgressData
deriving Repr, DecidableEq

/-- Initial state: no timers (browser interval handles start at 1). -/
def initPollState : PollState :=
  { intervals := [], intervalRef := none, nextHandle := 1, progress := none }

/-- Embeds `stopProgressPolling` from `useChat.ts`: clear the referenced interval
(if any) and blank the visible progress. -/
def stopProgressPolling (s : PollState) : PollState :=
  let s :=
    match s.intervalRef with
    | some h => { s with intervals := s.intervals.erase h, intervalRef := none }
    | none => s
  { s with progress := none }

/-- Embeds `startProgressPolling` from `useChat.ts`: always stop first, then
install a fresh interval running the `poll` closure (the poll ticks
themselves are delivered as `pollTick` events). -/
def startProgressPolling (s : PollState) : PollState :=
  let s := stopProgressPolling s
  { s with intervals := s.intervals ++ [s.nextHandle],
           intervalRef := some s.nextHandle,
           nextHandle := s.nextHandle + 1 }

/-- One run of the `poll` closure in `startProgressPolling`: fetch progress
(`getProgress` absorbs fetch failures into `not_found`) and surface it only
when its status is not the `not_found` sentinel. -/
def pollTick (s : PollState) (fetch : Except String ProgressData) : PollState :=
  let progressData := getProgress fetch
  if progressData.status ≠ "not_found" then { s with progress := some progressData }
  else s

/-- External events driving the polling machinery. -/
inductive PollEvent where
  | start (sessionId : String)
  | stop
  | tick (fetch : Except String ProgressData)
deriving Repr

/-- One step of the polling machinery. -/
def stepPoll (s : PollState) : PollEvent → PollState
  | .start _ => startProgressPolling s
  | .stop => stopProgressPolling s
  | .tick fetch => pollTick s fetch

/-- Run a sequence of polling events from a state. -/
def runPoll (s : PollState) (evs : List PollEvent) : PollState :=
  evs.foldl stepPoll s

/-- Decidable form of "the visible progress is not the `not_found`
sentinel". -/
def progressNotFoundFree (s : PollState) : Bool :=
  match s.progress with
  | some p => p.status ≠ "not_found"
  | none => true

/-! ## Retry wrapper (`withRetry`, api client)

An attempt outcome is either a value, an `AxiosError` (optionally carrying a
response status; no status means a network-level failure with no response),
or a non-Axios error. Attempt outcomes are supplied as a function from the
attempt index; the trace records the propagated result, the number of
operation invocations, and the sleeps performed between attempts. -/

/-- The part of an `AxiosError` inspected by `isRetryableError`:
`response?.status`, with `none` meaning no response was received. -/
structure AxiosErrorData where
  status : Option Nat
deriving Repr, DecidableEq

/-- An error thrown by an attempted operation: an `AxiosError`, or any
other thrown value. -/
inductive ReqError where
  | axios (e : AxiosErrorData)
  | other
deriving Repr, DecidableEq

/-- Embeds `isRetryableError` from the api client: retry on network errors with no
response, and on gateway statuses 502/503/504. -/
def isRetryableError (e : AxiosErrorData) : Bool :=
  match e.status with
  | none => true
  | some status => status == 502 || status == 503 || status == 504

/-- Embeds `MAX_RETRIES` from the api client. -/
def MAX_RETRIES : Nat := 2

/-- Embeds `RETRY_DELAY` (milliseconds) from the api client. -/
def RETRY_DELAY : Nat := 2000

/-- The `error instanceof AxiosError && isRetryableError(error)` guard of
`withRetry`. -/
def retryGuard : ReqError → Bool
  | .axios e => isRetryableError e
  | .other => false

/-- Observable trace of a `withRetry` run. -/
structure RetryTrace (T : Type) where
  result : Except ReqError T
  attempts : Nat
  delays : List Nat
deriving Repr

/-- The `for (attempt = 0; attempt <= retries; attempt++)` loop body of
`withRetry`, from a given attempt index. -/
def withRetryGo {T : Type} (outcomes : Nat → Except ReqError T)
    (retries : Nat) (attempt : Nat) : RetryTrace T :=
  match outcomes attempt with
  | .ok v => { result := .ok v, attempts := 1, delays := [] }
  | .error e =>
    if h : retryGuard e = true ∧ attempt < retries then
      let rest := withRetryGo outcomes retries (attempt + 1)
      { result := rest.result, attempts := rest.attempts + 1,
        delays := RETRY_DELAY * (attempt + 1) :: rest.delays }
    else
      { result := .error e, attempts := 1, delays := [] }
termination_by retries - attempt
decreasing_by omega

/-- Embeds `withRetry` from the api client. -/
def withRetry {T : Type} (outcomes : Nat → Except ReqError T)
    (retries : Nat := MAX_RETRIES) : RetryTrace T :=
  withRetryGo outcomes retries 0

/-- Embeds `sendMessage` from the api client: a chat send is a `withRetry` around
the `POST /api/chat` call, with the default retry bound. -/
def sendMessageWithRetry {T : Type} (outcomes : Nat → Except ReqError T) :
    RetryTrace T :=
  withRetry outcomes

/-! ## Send-error classification (`useChat.ts`, catch branch of
`sendUserMessage`)

The thrown value is modelled as `Option String`: `some msg` is an
`Error` with message `msg`, `none` any non-`Error` value. -/

def timeoutErrorText : String :=
  "Request timed out. Claude Code is still processing - please wait and try again in a moment."

def networkErrorText : String :=
  "Network error. Please check your connection and try again."

def gatewayErrorText : String :=
  "Server temporarily unavailable. Please try again in a few seconds."

def authErrorText : String :=
  "Authentication error. The server may need to re-authenticate with Claude."

def defaultSendErrorText : String := "Failed to send message"

/-- The error-classification chain in the catch branch of
`sendUserMessage` (`useChat.ts`), applied to the lowered message of a
thrown `Error`; a non-`Error` yields the default text. -/
def parseSendError (err : Option String) : String :=
  match err with
  | none => defaultSendErrorText
  | some msg =>
    let m := lowerStr msg
    if strContains m "timeout" || strContains m "econnaborted" then
      timeoutErrorText
    else if strContains m "network" || strContains m "econnrefused"
        || strContains m "enotfound" then
      networkErrorText
    else if strContains m "502" || strContains m "503" || strContains m "504" then
      gatewayErrorText
    else if strContains m "authentication" || strContains m "401" then
      authErrorText
    else
      msg

/-- Modelled from the spec's words (section 7): classification is
first-matching-rule keyword matching over the lowered message, with the
categories in the order timeout, network, gateway, authentication, and the
raw message as fallback. -/
def specClassifyRules : List ((String → Bool) × String) :=
  [ (fun m => strContains m "timeout" || strContains m "econnaborted", timeoutErrorText),
    (fun m => strContains m "network" || strContains m "econnrefused"
        || strContains m "enotfound", networkErrorText),
    (fun m => strContains m "502" || strContains m "503" || strContains m "504",
      gatewayErrorText),
    (fun m => strContains m "authentication" || strContains m "401", authErrorText) ]

/-- First rule of `rules` whose predicate accepts `m`, else the fallback. -/
def firstMatching (rules : List ((String → Bool) × String)) (m : String)
    (fallback : String) : String :=
  match rules with
  | [] => fallback
  | (p, out) :: rest =>
    if p m then out else firstMatching rest m fallback

/-- Spec-side classifier: keyword rules in precedence order over the
lowered message, raw message as fallback. -/
def specClassify (err : Option String) : String :=
  match err with
  | none => defaultSendErrorText
  | some msg => firstMatching specClassifyRules (lowerStr msg) msg

/-! ## Session/message orchestrator (`useChat.ts`)

The hook state becomes a record; each `useCallback` operation becomes a
function from the state (and the outcomes of the network calls it awaits)
to the new state.  The progress timer is summarised inside `ChatState` by
the session currently polled (`progressTimer`), matching
`progressIntervalRef`; the exact timer-handle bookkeeping is the
`PollState` system above. -/

/-- The state owned by the `useChat` hook. -/
structure ChatState where
  messages : List Message
  sessions : List Session
  currentSessionId : Option String
  workspacePath : Option String
  isLoading : Bool
  progress : Option ProgressData
  error : Option String
  progressTimer : Option String
deriving Repr, DecidableEq

/-- Embeds `stopProgressPolling` as it acts on the hook state: the interval is
cleared and the visible progress blanked. -/
def stopPollingS (st : ChatState) : ChatState :=
  { st with progressTimer := none, progress := none }

/-- Embeds `startProgressPolling sid` as it acts on the hook state: stop first,
then install the new interval keyed to `sid` (the initial `poll()` is
asynchronous and is modelled as later `pollTick` events). -/
def startPollingS (st : ChatState) (sid : String) : ChatState :=
  { stopPollingS st with progressTimer := some sid }

/-- Outcome of a `refreshSessions` call: unauthenticated (clears the
cache), a successful fetch of a session list, or a failed fetch (logged
and swallowed). -/
inductive RefreshOutcome where
  | notAuth
  | ok (sessions : List Session)
  | failed
deriving Repr

/-- Embeds `refreshSessions` from `useChat.ts`. -/
def refreshSessions (st : ChatState) : RefreshOutcome → ChatState
  | .notAuth => { st with sessions := [] }
  | .ok sessionList => { st with sessions := sessionList }
  | .failed => st

/-- The placeholder-replacement update in the success branch of
`sendUserMessage`: overwrite the last message only when it is still the
streaming placeholder. -/
def replaceTrailingStreaming (msgs : List Message) (m : Message) : List Message :=
  match msgs.getLast? with
  | some lastMsg => if lastMsg.isStreaming then msgs.dropLast ++ [m] else msgs
  | none => msgs

/-- The placeholder-removal update in the failure branch of
`sendUserMessage`: pop the last message only when it is the streaming
placeholder. -/
def popTrailingStreaming (msgs : List Message) : List Message :=
  match msgs.getLast? with
  | some lastMsg => if lastMsg.isStreaming then msgs.dropLast else msgs
  | none => msgs

/-- Embeds `sendUserMessage` from `useChat.ts`.  `result` is the outcome of the
awaited `sendMessage` call (`some msg` on failure = a thrown `Error` with
that message, `none` = a non-`Error` thrown value), `refreshed` the outcome
of the `refreshSessions` performed on success, and `nowUser`/`nowAsst` the
two `new Date().toISOString()` reads.  Returns the new state together with
the chat request issued (`none` when the guard returned early). -/
def sendUserMessage (st : ChatState) (content : String)
    (result : Except (Option String) ChatResponse)
    (refreshed : RefreshOutcome) (nowUser nowAsst : String) :
    ChatState × Option ChatRequest :=
  if jsTrim content = "" || st.isLoading then (st, none)
  else
    let entrySessionId := st.currentSessionId
    let st := { st with error := none, isLoading := true }
    let userMessage : Message :=
      { role := "user", content := jsTrim content, timestamp := some nowUser,
        tool_calls := none, isStreaming := false }
    let st := { st with messages := st.messages ++ [userMessage] }
    let assistantPlaceholder : Message :=
      { role := "assistant", content := "", timestamp := none,
        tool_calls := none, isStreaming := true }
    let st := { st with messages := st.messages ++ [assistantPlaceholder] }
    let st :=
      match entrySessionId with
      | some sid => startPollingS st sid
      | none => st
    let request : ChatRequest :=
      { message := jsTrim content, session_id := entrySessionId,
        workspace_path := st.workspacePath }
    let st :=
      match result with
      | .ok response =>
        let st := { st with currentSessionId := some response.session_id }
        let st :=
          match response.workspace_path with
          | some wp => { st with workspacePath := some wp }
          | none => st
        let finalAssistant : Message :=
          { role := "assistant", content := response.response,
            timestamp := some nowAsst, tool_calls := some response.tool_calls,
            isStreaming := false }
        let st := { st with messages := replaceTrailingStreaming st.messages finalAssistant }
        let st := refreshSessions st refreshed
        if some response.session_id ≠ entrySessionId then
          startPollingS st response.session_id
        else st
      | .error err =>
        let st := { st with error := some (parseSendError err) }
        { st with messages := popTrailingStreaming st.messages }
    let st := { st with isLoading := false }
    (stopPollingS st, some request)

/-- Embeds `startNewChat` from `useChat.ts`: pure local reset. -/
def startNewChat (st : ChatState) : ChatState :=
  let st := { st with messages := [], currentSessionId := none,
                      workspacePath := none, error := none }
  stopPollingS st

/-- Embeds `removeSession` from `useChat.ts`: on backend delete failure nothing
local changes (the error is only logged); on success, reset locally when
the deleted id is current, then refresh the session cache. -/
def removeSession (st : ChatState) (sessionId : String)
    (deleteResult : Except String Unit) (refreshed : RefreshOutcome) :
    ChatState :=
  match deleteResult with
  | .error _ => st
  | .ok _ =>
    let st := if some sessionId = st.currentSessionId then startNewChat st else st
    refreshSessions st refreshed

/-! ## File-reference extraction (`extractFilePaths`, api client)

The six JS regexes are embedded as backtracking matchers over `List Char`
with the same alternation order, laziness and character classes as the
source patterns (all six use the `gi` flags; the base64 pattern uses `g`).
A global scan replays `RegExp.exec` with `lastIndex`: find the leftmost
match, emit capture group 1, continue after the match. -/

/-- JS `\s` (the ASCII part, which covers the texts involved). -/
def wsChar (c : Char) : Bool :=
  c == ' ' || c == '\t' || c == '\n' || c == '\r' || c == '\x0b' || c == '\x0c'

/-- Case-insensitive literal prefix: returns the matched original slice
and the remaining input. -/
def ciPrefixDrop : List Char → List Char → Option (List Char × List Char)
  | [], cs => some ([], cs)
  | _ :: _, [] => none
  | p :: ps, c :: cs =>
    if p.toLower == c.toLower then
      match ciPrefixDrop ps cs with
      | some (m, rest) => some (c :: m, rest)
      | none => none
    else none

/-- Ordered alternation of case-insensitive literals, with backtracking
into the continuation (the continuation gets the matched slice and the
rest). -/
def altCI {α : Type} (alts : List String) (cs : List Char)
    (k : List Char → List Char → Option α) : Option α :=
  match alts with
  | [] => none
  | a :: rest =>
    (match ciPrefixDrop a.data cs with
     | some (m, restCs) => k m restCs
     | none => none) <|> altCI rest cs k

/-- Case-sensitive literal, continuation style. -/
def litStr {α : Type} : List Char → (List Char → Option α) → List Char → Option α
  | [], k, cs => k cs
  | _ :: _, _, [] => none
  | p :: ps, k, c :: cs => if c == p then litStr ps k cs else none

/-- Ordered alternation of case-sensitive literals. -/
def altCS {α : Type} (alts : List String) (cs : List Char)
    (k : List Char → List Char → Option α) : Option α :=
  match alts with
  | [] => none
  | a :: rest =>
    (litStr a.data (fun restCs => k a.data restCs) cs) <|> altCS rest cs k

/-- One character of a class. -/
def oneOf {α : Type} (cls : Char → Bool) (k : Char → List Char → Option α) :
    List Char → Option α
  | [] => none
  | c :: cs => if cls c then k c cs else none

/-- Greedy `cls*` with backtracking into the continuation. -/
def manyGreedy {α : Type} (cls : Char → Bool) (k : List Char → Option α) :
    List Char → Option α
  | [] => k []
  | c :: cs =>
    if cls c then (manyGreedy cls k cs) <|> k (c :: cs)
    else k (c :: cs)

/-- Greedy `cls+` with backtracking into the continuation. -/
def plusGreedy {α : Type} (cls : Char → Bool) (k : List Char → Option α) :
    List Char → Option α
  | [] => none
  | c :: cs => if cls c then manyGreedy cls k cs else none

/-- Lazy `cls+?` with capture: after each (mandatory first) consumed
character, try the continuation on the capture so far; expand on failure. -/
def lazyPlusCapGo {α : Type} (cls : Char → Bool)
    (k : List Char → List Char → Option α) (acc : List Char) :
    List Char → Option α
  | [] => none
  | c :: cs =>
    if cls c then
      (k (acc ++ [c]) cs) <|> lazyPlusCapGo cls k (acc ++ [c]) cs
    else none

/-- Lazy `cls+?` with capture. -/
def lazyPlusCap {α : Type} (cls : Char → Bool)
    (k : List Char → List Char → Option α) (cs : List Char) : Option α :=
  lazyPlusCapGo cls k [] cs

/-- Greedy optional single character of a class. -/
def optChar {α : Type} (cls : Char → Bool) (k : List Char → Option α) :
    List Char → Option α
  | [] => k []
  | c :: cs => if cls c then (k cs) <|> k (c :: cs) else k (c :: cs)

/-- Literal single character. -/
def litCh {α : Type} (ch : Char) (k : List Char → Option α) :
    List Char → Option α
  | [] => none
  | c :: cs => if c == ch then k cs else none

/-! ### The six path patterns and the base64 pattern -/

/-- The keyword alternation of pattern 1, in source order. -/
def keywords1 : List String :=
  ["Created", "Generated", "Saved", "saved", "Writing", "Wrote", "wrote",
   "Output", "output", "File", "file", "Image", "image", "Chart", "chart",
   "Plot", "plot", "Figure", "figure", "saved to", "written to", "exported to"]

def exts14 : List String :=
  ["png", "jpg", "jpeg", "gif", "svg", "pdf", "xlsx", "xls", "csv", "json",
   "html", "md", "py", "txt"]

def exts11out : List String :=
  ["png", "jpg", "jpeg", "gif", "svg", "html", "csv", "json", "pdf", "xlsx", "xls"]

def exts11q : List String :=
  ["png", "jpg", "jpeg", "gif", "svg", "pdf", "xlsx", "xls", "csv", "json", "html"]

/-- The output-directory alternation of pattern 4, in source order. -/
def outDirs : List String :=
  ["reports_output", "output", "charts", "figures", "images", "plots",
   "results", "exports"]

def isColonWs (c : Char) : Bool := c == ':' || wsChar c

def quoteCls (c : Char) : Bool := c == '`' || c == '"' || c == '\''

def quote2Cls (c : Char) : Bool := c == '"' || c == '\''

def slashCls (c : Char) : Bool := c == '/' || c == '\\'

/-- Char class `[^\s\n`"']` of pattern 1. -/
def p1cls (c : Char) : Bool := !wsChar c && c != '\n' && !quoteCls c

/-- Char class `[^\s`]` of pattern 2. -/
def p2cls (c : Char) : Bool := !wsChar c && c != '`'

/-- Char class `[^\s\n]` of pattern 3. -/
def p3cls (c : Char) : Bool := !wsChar c && c != '\n'

/-- Char class `[^\s\n"'`]` of patterns 4 and 5. -/
def p4cls (c : Char) : Bool := !wsChar c && c != '\n' && !quoteCls c

/-- Char class `[^"'\n]` of pattern 6. -/
def p6cls (c : Char) : Bool := c != '"' && c != '\'' && c != '\n'

/-- Char class `[-•*]` of pattern 3. -/
def bulletCls (c : Char) : Bool := c == '-' || c == '•' || c == '*'

/-- Char class `[A-Za-z0-9+/=]` of the base64 pattern. -/
def b64Char (c : Char) : Bool := c.isAlpha || c.isDigit || c == '+' || c == '/' || c == '='

def b64ImgExts : List String := ["png", "jpeg", "jpg", "gif", "svg+xml"]

/-- Pattern 1: keyword, `[:\s]+`, optional quote, captured lazy path with
extension, optional quote. -/
def p1MatchAt (cs : List Char) : Option (String × List Char) :=
  altCI keywords1 cs (fun _ rest1 =>
    plusGreedy isColonWs (fun rest2 =>
      optChar quoteCls (fun rest3 =>
        lazyPlusCap p1cls (fun acc rest4 =>
          litCh '.' (fun rest5 =>
            altCI exts14 rest5 (fun extM rest6 =>
              optChar quoteCls (fun rest7 =>
                some (String.mk (acc ++ '.' :: extM), rest7)) rest6)) rest4)
          rest3) rest2) rest1)

/-- Pattern 2: backtick-quoted path. -/
def p2MatchAt (cs : List Char) : Option (String × List Char) :=
  litCh '`' (fun rest1 =>
    lazyPlusCap p2cls (fun acc rest2 =>
      litCh '.' (fun rest3 =>
        altCI exts14 rest3 (fun extM rest4 =>
          litCh '`' (fun rest5 =>
            some (String.mk (acc ++ '.' :: extM), rest5)) rest4)) rest2)
      rest1) cs

/-- Pattern 3: bullet/dash prefix then path. -/
def p3MatchAt (cs : List Char) : Option (String × List Char) :=
  oneOf bulletCls (fun _ rest1 =>
    manyGreedy wsChar (fun rest2 =>
      lazyPlusCap p3cls (fun acc rest3 =>
        litCh '.' (fun rest4 =>
          altCI exts14 rest4 (fun extM rest5 =>
            some (String.mk (acc ++ '.' :: extM), rest5))) rest3) rest2)
      rest1) cs

/-- Pattern 4: a known output directory, a slash, then path; the capture is
the whole match. -/
def p4MatchAt (cs : List Char) : Option (String × List Char) :=
  altCI outDirs cs (fun dirM rest1 =>
    oneOf slashCls (fun sep rest2 =>
      lazyPlusCap p4cls (fun acc rest3 =>
        litCh '.' (fun rest4 =>
          altCI exts11out rest4 (fun extM rest5 =>
            some (String.mk (dirM ++ sep :: (acc ++ '.' :: extM)), rest5))) rest3)
        rest2) rest1)

/-- Pattern 5: relative path starting with `./` (or `.\`); the capture
includes the leading marker. -/
def p5MatchAt (cs : List Char) : Option (String × List Char) :=
  litCh '.' (fun rest1 =>
    oneOf slashCls (fun sep rest2 =>
      lazyPlusCap p4cls (fun acc rest3 =>
        litCh '.' (fun rest4 =>
          altCI exts11q rest4 (fun extM rest5 =>
            some (String.mk ('.' :: sep :: (acc ++ '.' :: extM)), rest5))) rest3)
        rest2) rest1) cs

/-- Pattern 6: quoted path (either quote opens or closes). -/
def p6MatchAt (cs : List Char) : Option (String × List Char) :=
  oneOf quote2Cls (fun _ rest1 =>
    lazyPlusCap p6cls (fun acc rest2 =>
      litCh '.' (fun rest3 =>
        altCI exts11q rest3 (fun extM rest4 =>
          oneOf quote2Cls (fun _ rest5 =>
            some (String.mk (acc ++ '.' :: extM), rest5)) rest4)) rest2)
      rest1) cs

/-- The base64 data-URI pattern; the emitted string is the full match. -/
def b64MatchAt (cs : List Char) : Option (String × List Char) :=
  litStr "data:image/".data (fun rest1 =>
    altCS b64ImgExts rest1 (fun extM rest2 =>
      litStr ";base64,".data (fun rest3 =>
        let run := rest3.takeWhile b64Char
        if run.isEmpty then none
        else
          some (String.mk ("data:image/".data ++ extM ++ ";base64,".data ++ run),
                rest3.drop run.length)) rest2)) cs

/-- Global scan (`exec` with the `g` flag): leftmost match, emit, resume
after the match; fuel bounds the number of scan steps (every match
consumes at least one character). -/
def scanPattern (matchAt : List Char → Option (String × List Char)) :
    Nat → List Char → List String
  | 0, _ => []
  | _ + 1, [] => []
  | fuel + 1, c :: cs =>
    match matchAt (c :: cs) with
    | some (cap, rest) => cap :: scanPattern matchAt fuel rest
    | none => scanPattern matchAt fuel cs

/-- Run a pattern over a whole text. -/
def scanAll (matchAt : List Char → Option (String × List Char))
    (text : String) : List String :=
  scanPattern matchAt (text.data.length + 1) text.data

/-! ### Per-candidate path processing and bucketing -/

/-- Char class `[,;:)\]}>]` — the trailing punctuation stripped from a candidate. -/
def trailPunct (c : Char) : Bool :=
  c == ',' || c == ';' || c == ':' || c == ')' || c == ']' || c == '\x7d' || c == '>'

/-- The cleanup applied to `match[1]`: backslashes to slashes, a leading
`./` removed, a trailing run of punctuation removed. -/
def cleanPath (raw : String) : String :=
  let cs := raw.data.map (fun c => if c == '\\' then '/' else c)
  let cs :=
    match cs with
    | '.' :: '/' :: rest => rest
    | other => other
  String.mk ((cs.reverse.dropWhile trailPunct).reverse)

/-- Substring after the first occurrence of `pat` in `s` (the capture of
JS `s.match(/\/repo\/(.+)$/)`, whose remainder is the text to the end). -/
def afterFirstSub (s pat : List Char) : Option (List Char) :=
  match s with
  | [] => none
  | c :: rest =>
    if isPrefixL pat (c :: rest) then some ((c :: rest).drop pat.length)
    else afterFirstSub rest pat

/-- The workspace/repo routing of `extractFilePaths`: a path containing
`/workspaces/` is replaced by the (non-empty) portion after the first
`/repo/`, or dropped when there is none; afterwards a leading `repo/`
prefix is removed once.  (The matched paths never contain a newline, so
the JS `(.+)$` remainder always applies.) -/
def routePath (fp0 : String) : Option String :=
  let step1 : Option String :=
    if strContains fp0 "/workspaces/" then
      match afterFirstSub fp0.data "/repo/".data with
      | some rel => if rel.isEmpty then none else some (String.mk rel)
      | none => none
    else some fp0
  match step1 with
  | none => none
  | some fp =>
    some (if strStartsWith fp "repo/" then String.mk (fp.data.drop 5) else fp)

/-- JS `s.split('.')` over the char list (always returns at least one,
possibly empty, segment). -/
def splitOnDot : List Char → List (List Char)
  | [] => [[]]
  | c :: rest =>
    let r := splitOnDot rest
    if c == '.' then [] :: r
    else
      match r with
      | [] => [[c]]
      | h :: t => (c :: h) :: t

/-- Embeds `filePath.split('.').pop()?.toLowerCase() || ''`. -/
def extOf (fp : String) : String :=
  lowerStr (String.mk (((splitOnDot fp.data).getLast?).getD []))

/-- The `ExtractedFiles`-shaped result of `extractFilePaths` (the source
returns these five arrays). -/
structure ExtractedFiles where
  images : List String
  reports : List String
  data : List String
  code : List String
  base64Images : List String
deriving Repr, DecidableEq

def emptyFiles : ExtractedFiles := ⟨[], [], [], [], []⟩

/-- Embeds `if (!bucket.includes(p)) bucket.push(p)`. -/
def pushUnique (xs : List String) (x : String) : List String :=
  if xs.contains x then xs else xs ++ [x]

/-- Extension-based bucket classification of one processed path. -/
def bucketAdd (files : ExtractedFiles) (fp : String) : ExtractedFiles :=
  let ext := extOf fp
  if ["png", "jpg", "jpeg", "gif", "svg"].contains ext then
    { files with images := pushUnique files.images fp }
  else if ["pdf", "xlsx", "xls", "html", "md"].contains ext then
    { files with reports := pushUnique files.reports fp }
  else if ["csv", "json"].contains ext then
    { files with data := pushUnique files.data fp }
  else if ["py", "txt"].contains ext then
    { files with code := pushUnique files.code fp }
  else files

/-- Process one regex capture: clean, route, bucket (or drop). -/
def processMatch (files : ExtractedFiles) (raw : String) : ExtractedFiles :=
  match routePath (cleanPath raw) with
  | some fp => bucketAdd files fp
  | none => files

/-- Embeds `extractFilePaths` from the api client. -/
def extractFilePaths (text : String) : ExtractedFiles :=
  let b64 := scanAll b64MatchAt text
  let files := b64.foldl
    (fun fs m => { fs with base64Images := pushUnique fs.base64Images m })
    emptyFiles
  let candidates :=
    scanAll p1MatchAt text ++ scanAll p2MatchAt text ++ scanAll p3MatchAt text ++
    scanAll p4MatchAt text ++ scanAll p5MatchAt text ++ scanAll p6MatchAt text
  candidates.foldl processMatch files

/-! ## Helper lemmas -/

/-- The timer bookkeeping invariant: the live intervals are exactly the one
referenced by `progressIntervalRef` (if any). -/
def pollInv (s : PollState) : Prop :=
  s.intervals = s.intervalRef.toList

theorem pollInv_init : pollInv initPollState := rfl

theorem stop_eq (s : PollState) :
    stopProgressPolling s =
      { intervals :=
          match s.intervalRef with
          | some h0 => s.intervals.erase h0
          | none => s.intervals,
        intervalRef := none, nextHandle := s.nextHandle, progress := none } := by
  obtain ⟨ints, ref, nh, prog⟩ := s
  cases ref <;> rfl

theorem start_eq (s : PollState) :
    startProgressPolling s =
      { intervals := (stopProgressPolling s).intervals ++ [s.nextHandle],
        intervalRef := some s.nextHandle, nextHandle := s.nextHandle + 1,
        progress := none } := by
  obtain ⟨ints, ref, nh, prog⟩ := s
  cases ref <;> rfl

theorem pollTick_eq (s : PollState) (fetch : Except String ProgressData) :
    pollTick s fetch =
      if (getProgress fetch).status ≠ "not_found" then
        { s with progress := some (getProgress fetch) }
      else s := rfl

theorem pollTick_progress (s : PollState) (fetch : Except String ProgressData) :
    (pollTick s fetch).progress =
      if (getProgress fetch).status ≠ "not_found" then some (getProgress fetch)
      else s.progress := by
  rw [pollTick_eq]
  split <;> rfl

theorem pollTick_timers (s : PollState) (fetch : Except String ProgressData) :
    (pollTick s fetch).intervals = s.intervals ∧
    (pollTick s fetch).intervalRef = s.intervalRef := by
  rw [pollTick_eq]
  split <;> simp

theorem pollInv_stop (s : PollState) (h : pollInv s) :
    pollInv (stopProgressPolling s) := by
  unfold pollInv at h ⊢
  rw [stop_eq]
  cases href : s.intervalRef with
  | none => simp_all
  | some handle =>
    rw [href] at h
    simp only [Option.toList] at h
    simp [h, List.erase_cons_head]

theorem stop_intervals_nil (s : PollState) (h : pollInv s) :
    (stopProgressPolling s).intervals = [] := by
  have h' := pollInv_stop s h
  unfold pollInv at h'
  rw [stop_eq] at h' ⊢
  simpa using h'

theorem pollInv_start (s : PollState) (h : pollInv s) :
    pollInv (startProgressPolling s) := by
  unfold pollInv
  rw [start_eq, stop_intervals_nil s h]
  simp

theorem pollInv_step (s : PollState) (e : PollEvent) (h : pollInv s) :
    pollInv (stepPoll s e) := by
  cases e with
  | start sid => exact pollInv_start s h
  | stop => exact pollInv_stop s h
  | tick fetch =>
    show pollInv (pollTick s fetch)
    unfold pollInv
    rw [(pollTick_timers s fetch).1, (pollTick_timers s fetch).2]
    exact h

theorem pollInv_run (evs : List PollEvent) :
    ∀ s : PollState, pollInv s → pollInv (runPoll s evs) := by
  induction evs with
  | nil => intro s h; simpa [runPoll] using h
  | cons e rest ih =>
    intro s h
    have hstep : runPoll s (e :: rest) = runPoll (stepPoll s e) rest := rfl
    rw [hstep]
    exact ih _ (pollInv_step s e h)

theorem notFoundFree_stop (s : PollState) :
    progressNotFoundFree (stopProgressPolling s) = true := by
  rw [stop_eq]
  rfl

theorem notFoundFree_step (s : PollState) (e : PollEvent)
    (h : progressNotFoundFree s = true) :
    progressNotFoundFree (stepPoll s e) = true := by
  cases e with
  | start sid =>
    show progressNotFoundFree (startProgressPolling s) = true
    rw [start_eq]
    rfl
  | stop => exact notFoundFree_stop s
  | tick fetch =>
    show progressNotFoundFree (pollTick s fetch) = true
    unfold progressNotFoundFree at h ⊢
    rw [pollTick_progress]
    by_cases hc : (getProgress fetch).status = "not_found"
    · rw [if_neg (not_not_intro hc)]
      exact h
    · rw [if_pos hc]
      simpa using hc

theorem notFoundFree_run (evs : List PollEvent) :
    ∀ s : PollState, progressNotFoundFree s = true →
      progressNotFoundFree (runPoll s evs) = true := by
  induction evs with
  | nil => intro s h; simpa [runPoll] using h
  | cons e rest ih =>
    intro s h
    have hstep : runPoll s (e :: rest) = runPoll (stepPoll s e) rest := rfl
    rw [hstep]
    exact ih _ (notFoundFree_step s e h)

/-! ## Claim theorems for the polling loop -/

/-- C3: in every state of the progress-polling loop reachable from the
initial state, the visible progress is never a `ProgressData` with status
`not_found`; moreover every poll tick whose fetched result has status
`not_found` (in particular every fetch failure, which `getProgress` maps to
`not_found`) leaves the previously visible progress unchanged. -/
theorem progress_never_not_found :
    (∀ evs : List PollEvent,
      progressNotFoundFree (runPoll initPollState evs) = true) ∧
    (∀ (s : PollState) (fetch : Except String ProgressData),
      (getProgress fetch).status = "not_found" →
        (pollTick s fetch).progress = s.progress) := by
  constructor
  · intro evs
    exact notFoundFree_run evs initPollState rfl
  · intro s fetch hnf
    rw [pollTick_progress, if_neg (not_not_intro hnf)]

/-- Witness for C3: a failed fetch is mapped to the `not_found` sentinel
and its tick leaves the visible progress untouched. -/
theorem progress_never_not_found_witness :
    (getProgress (Except.error "network down")).status = "not_found" ∧
    (pollTick initPollState (Except.error "network down")).progress =
      initPollState.progress :=
  ⟨rfl, progress_never_not_found.2 initPollState (Except.error "network down") rfl⟩

/-- C6: along every sequence of polling events from the initial state there
is at most one live progress interval; `startProgressPolling` cancels any
prior interval before creating exactly one new one, and
`stopProgressPolling` clears the interval handle (leaving no live interval)
and resets the visible progress to absent. -/
theorem at_most_one_progress_timer (evs : List PollEvent) :
    (runPoll initPollState evs).intervals.length ≤ 1 ∧
    (startProgressPolling (runPoll initPollState evs)).intervals.length = 1 ∧
    (stopProgressPolling (runPoll initPollState evs)).intervals = [] ∧
    (stopProgressPolling (runPoll initPollState evs)).intervalRef = none ∧
    (stopProgressPolling (runPoll initPollState evs)).progress = none := by
  have hin : pollInv (runPoll initPollState evs) :=
    pollInv_run evs initPollState pollInv_init
  refine ⟨?_, ?_, ?_, ?_, ?_⟩
  · unfold pollInv at hin
    rw [hin]
    cases (runPoll initPollState evs).intervalRef <;> simp [Option.toList]
  · rw [start_eq, stop_intervals_nil _ hin]
    rfl
  · exact stop_intervals_nil _ hin
  · rw [stop_eq]
  · rw [stop_eq]

/-! ## Claim theorems for the retry wrapper -/

theorem withRetryGo_attempts_le {T : Type} (outcomes : Nat → Except ReqError T) :
    ∀ (n retries attempt : Nat), retries - attempt ≤ n →
      (withRetryGo outcomes retries attempt).attempts ≤ retries - attempt + 1 := by
  intro n
  induction n with
  | zero =>
    intro retries attempt hle
    rw [withRetryGo]
    cases houtcome : outcomes attempt with
    | ok v => simp
    | error e =>
      dsimp only
      rw [dif_neg]
      · simp
      · rintro ⟨-, hlt⟩
        omega
  | succ n ih =>
    intro retries attempt hle
    rw [withRetryGo]
    cases houtcome : outcomes attempt with
    | ok v => simp
    | error e =>
      dsimp only
      by_cases hg : retryGuard e = true ∧ attempt < retries
      · rw [dif_pos hg]
        have hrec := ih retries (attempt + 1) (by omega)
        dsimp only
        omega
      · rw [dif_neg hg]
        simp

/-- C2: for a chat send (`sendMessage` = `withRetry` with the default
bound), when every attempt fails with a retryable error the client performs
exactly 2 additional attempts (3 operation invocations), sleeping 2000 ms
then 4000 ms between attempts (a strictly increasing backoff), before
propagating the last error; in general at most `MAX_RETRIES` additional
attempts happen; and a non-retryable first error (e.g. an HTTP 400) is
propagated immediately with no retry and no delay.  Retryable means: an
`AxiosError` with no response, or with status 502, 503 or 504. -/
theorem chat_send_retry_policy :
    (∀ outcomes : Nat → Except ReqError ChatResponse,
      (∀ i, ∃ e, outcomes i = .error e ∧ retryGuard e = true) →
      ∃ e2, outcomes 2 = .error e2 ∧
        sendMessageWithRetry outcomes =
          { result := .error e2, attempts := 3, delays := [2000, 4000] }) ∧
    (∀ outcomes : Nat → Except ReqError ChatResponse,
      (sendMessageWithRetry outcomes).attempts ≤ 1 + MAX_RETRIES) ∧
    (∀ (outcomes : Nat → Except ReqError ChatResponse) (e : ReqError),
      outcomes 0 = .error e → retryGuard e = false →
      sendMessageWithRetry outcomes =
        { result := .error e, attempts := 1, delays := [] }) ∧
    List.Chain' (· < ·) [2000, 4000] ∧
    retryGuard (.axios { status := some 502 }) = true ∧
    retryGuard (.axios { status := some 503 }) = true ∧
    retryGuard (.axios { status := some 504 }) = true ∧
    retryGuard (.axios { status := none }) = true ∧
    retryGuard (.axios { status := some 400 }) = false := by
  refine ⟨?_, ?_, ?_,
    by simp [List.chain'_cons, List.chain'_singleton], rfl, rfl, rfl, rfl, rfl⟩
  · intro outcomes h
    obtain ⟨e0, h0, g0⟩ := h 0
    obtain ⟨e1, h1, g1⟩ := h 1
    obtain ⟨e2, h2, g2⟩ := h 2
    refine ⟨e2, h2, ?_⟩
    have u2 : withRetryGo outcomes MAX_RETRIES 2 =
        { result := .error e2, attempts := 1, delays := [] } := by
      rw [withRetryGo, h2]
      dsimp only
      rw [dif_neg]
      rintro ⟨-, hlt⟩
      simp [MAX_RETRIES] at hlt
    have u1 : withRetryGo outcomes MAX_RETRIES 1 =
        { result := .error e2, attempts := 2, delays := [4000] } := by
      rw [withRetryGo, h1]
      dsimp only
      rw [dif_pos ⟨g1, by norm_num [MAX_RETRIES]⟩]
      simp [u2, RETRY_DELAY]
    show withRetryGo outcomes MAX_RETRIES 0 = _
    rw [withRetryGo, h0]
    dsimp only
    rw [dif_pos ⟨g0, by norm_num [MAX_RETRIES]⟩]
    simp [u1, RETRY_DELAY]
  · intro outcomes
    have := withRetryGo_attempts_le outcomes MAX_RETRIES MAX_RETRIES 0 (by omega)
    show (withRetryGo outcomes MAX_RETRIES 0).attempts ≤ 1 + MAX_RETRIES
    omega
  · intro outcomes e h0 hg
    show withRetryGo outcomes MAX_RETRIES 0 = _
    rw [withRetryGo, h0]
    dsimp only
    rw [dif_neg]
    rintro ⟨hG, -⟩
    rw [hg] at hG
    exact Bool.false_ne_true hG

/-- Witness for C2: three consecutive 503 failures retry twice with
delays 2000 and 4000 ms then propagate; a single 400 response propagates
immediately with no retry. -/
theorem chat_send_retry_policy_witness :
    sendMessageWithRetry (T := ChatResponse)
        (fun _ => .error (.axios { status := some 503 })) =
      { result := .error (.axios { status := some 503 }), attempts := 3,
        delays := [2000, 4000] } ∧
    sendMessageWithRetry (T := ChatResponse)
        (fun _ => .error (.axios { status := some 400 })) =
      { result := .error (.axios { status := some 400 }), attempts := 1,
        delays := [] } := by
  constructor
  · obtain ⟨e2, he2, hrun⟩ := chat_send_retry_policy.1
      (fun _ => .error (.axios { status := some 503 }))
      (fun _ => ⟨.axios { status := some 503 }, rfl, rfl⟩)
    injection he2 with h
    rw [← h] at hrun
    exact hrun
  · exact chat_send_retry_policy.2.2.1
      (fun _ => .error (.axios { status := some 400 }))
      (.axios { status := some 400 }) rfl rfl

/-! ## Claim theorems for error classification -/

/-- C4: the stored user-visible error for a failed send is keyword
matching over the lowercased message with the categories in precedence
order timeout (`timeout`/`econnaborted`), network
(`network`/`econnrefused`/`enotfound`), gateway (`502`/`503`/`504`),
authentication (`authentication`/`401`), and the raw message otherwise:
the code's classifier coincides with the first-matching-rule classifier
written from the spec, and messages matching several categories get the
earlier one. -/
theorem send_error_classification :
    (∀ err : Option String, parseSendError err = specClassify err) ∧
    parseSendError (some "Network 502 TIMEOUT") = timeoutErrorText ∧
    parseSendError (some "network refused by 502 gateway") = networkErrorText ∧
    parseSendError (some "502 Bad Gateway authentication") = gatewayErrorText ∧
    parseSendError (some "authentication failed with 401") = authErrorText ∧
    parseSendError (some "Some other failure") = "Some other failure" ∧
    parseSendError none = defaultSendErrorText := by
  refine ⟨?_, rfl, rfl, rfl, rfl, rfl, rfl⟩
  intro err
  cases err with
  | none => rfl
  | some msg => rfl

/-! ## Claim theorems for the orchestrator -/

/-- A convenient fresh hook state. -/
def initChatState : ChatState :=
  { messages := [], sessions := [], currentSessionId := none,
    workspacePath := none, isLoading := false, progress := none,
    error := none, progressTimer := none }

/-- C5: with empty or whitespace-only input, or while a send is in flight,
`sendUserMessage` changes no state (messages, session id, workspace path,
loading flag, error, progress, session list) and issues no chat request. -/
theorem send_noop_on_empty_or_inflight
    (st : ChatState) (content : String)
    (result : Except (Option String) ChatResponse)
    (refreshed : RefreshOutcome) (nowUser nowAsst : String)
    (h : jsTrim content = "" ∨ st.isLoading = true) :
    sendUserMessage st content result refreshed nowUser nowAsst = (st, none) := by
  unfold sendUserMessage
  rcases h with h | h <;> rw [if_pos (by simp [h])]

/-- Witness for C5: a whitespace-only input, and a non-empty input while
loading, both leave the state unchanged with no request issued. -/
theorem send_noop_on_empty_or_inflight_witness :
    sendUserMessage initChatState "   " (.error none) .failed "t1" "t2" =
      (initChatState, none) ∧
    sendUserMessage { initChatState with isLoading := true } "hello"
        (.error none) .failed "t1" "t2" =
      ({ initChatState with isLoading := true }, none) :=
  ⟨send_noop_on_empty_or_inflight _ _ _ _ _ _ (Or.inl (by decide)),
   send_noop_on_empty_or_inflight _ _ _ _ _ _ (Or.inr rfl)⟩

theorem replaceTrailingStreaming_concat (xs : List Message) (a m : Message) :
    replaceTrailingStreaming (xs ++ [a]) m =
      if a.isStreaming then xs ++ [m] else xs ++ [a] := by
  unfold replaceTrailingStreaming
  rw [List.getLast?_concat]
  dsimp only
  split <;> simp [List.dropLast_concat]

theorem popTrailingStreaming_concat (xs : List Message) (a : Message) :
    popTrailingStreaming (xs ++ [a]) =
      if a.isStreaming then xs else xs ++ [a] := by
  unfold popTrailingStreaming
  rw [List.getLast?_concat]
  dsimp only
  split <;> simp [List.dropLast_concat]

theorem refreshSessions_messages (st : ChatState) (r : RefreshOutcome) :
    (refreshSessions st r).messages = st.messages := by
  cases r <;> rfl

theorem replaceTrailingStreaming_append_two (xs : List Message) (u a m : Message) :
    replaceTrailingStreaming (xs ++ [u, a]) m =
      if a.isStreaming then xs ++ [u, m] else xs ++ [u, a] := by
  have h : xs ++ [u, a] = (xs ++ [u]) ++ [a] := by simp
  rw [h, replaceTrailingStreaming_concat]
  split <;> simp

theorem popTrailingStreaming_append_two (xs : List Message) (u a : Message) :
    popTrailingStreaming (xs ++ [u, a]) =
      if a.isStreaming then xs ++ [u] else xs ++ [u, a] := by
  have h : xs ++ [u, a] = (xs ++ [u]) ++ [a] := by simp
  rw [h, popTrailingStreaming_concat]

/-- C1: for every non-empty trimmed input and idle state, `sendUserMessage`
appends exactly one user message carrying the trimmed text; on success the
trailing streaming placeholder is replaced in place by exactly one
finalized assistant message (and the replacement guard leaves any
non-placeholder trailing message alone); on failure the trailing
placeholder is removed and the user message is retained. -/
theorem send_appends_user_then_finalizes_or_rolls_back
    (st : ChatState) (content : String) (refreshed : RefreshOutcome)
    (nowUser nowAsst : String)
    (hne : jsTrim content ≠ "") (hload : st.isLoading = false) :
    (∀ resp : ChatResponse,
      (sendUserMessage st content (.ok resp) refreshed nowUser nowAsst).1.messages =
        st.messages ++
          [ { role := "user", content := jsTrim content, timestamp := some nowUser,
              tool_calls := none, isStreaming := false },
            { role := "assistant", content := resp.response,
              timestamp := some nowAsst, tool_calls := some resp.tool_calls,
              isStreaming := false } ]) ∧
    (∀ err : Option String,
      (sendUserMessage st content (.error err) refreshed nowUser nowAsst).1.messages =
        st.messages ++
          [ { role := "user", content := jsTrim content, timestamp := some nowUser,
              tool_calls := none, isStreaming := false } ]) ∧
    (∀ (msgs : List Message) (m : Message),
      msgs.getLast?.map Message.isStreaming ≠ some true →
      replaceTrailingStreaming msgs m = msgs) := by
  refine ⟨?_, ?_, ?_⟩
  · intro resp
    unfold sendUserMessage
    rw [if_neg (by simp [hne, hload])]
    dsimp only
    cases hcs : st.currentSessionId <;>
      cases hwp : resp.workspace_path <;>
        simp [startPollingS, stopPollingS, refreshSessions_messages,
          replaceTrailingStreaming_append_two, apply_ite (ChatState.messages)]
  · intro err
    unfold sendUserMessage
    rw [if_neg (by simp [hne, hload])]
    dsimp only
    cases hcs : st.currentSessionId <;>
      simp [startPollingS, stopPollingS, popTrailingStreaming_append_two]
  · intro msgs m hms
    unfold replaceTrailingStreaming
    cases hl : msgs.getLast? with
    | none => rfl
    | some lastMsg =>
      dsimp only
      rw [if_neg]
      rw [hl] at hms
      simpa using hms

/-- Witness for C1: from a fresh state, a successful send appends the user
message and the finalized assistant message; a failed send appends only
the user message. -/
theorem send_appends_user_witness :
    (sendUserMessage initChatState "hi"
        (.ok { session_id := "s1", response := "done", tool_calls := [],
               requires_approval := false, workspace_path := none })
        (.ok []) "t1" "t2").1.messages =
      [ { role := "user", content := "hi", timestamp := some "t1",
          tool_calls := none, isStreaming := false },
        { role := "assistant", content := "done", timestamp := some "t2",
          tool_calls := some [], isStreaming := false } ] ∧
    (sendUserMessage initChatState "hi" (.error (some "boom"))
        (.ok []) "t1" "t2").1.messages =
      [ { role := "user", content := "hi", timestamp := some "t1",
          tool_calls := none, isStreaming := false } ] := by
  have h := send_appends_user_then_finalizes_or_rolls_back initChatState "hi"
    (.ok []) "t1" "t2" (by decide) rfl
  exact ⟨h.1 _, h.2.1 (some "boom")⟩

/-- C9: deleting the current session with a successful backend delete
leaves the local conversation state (messages, current session id,
workspace path, error, progress, polling timer) equal to the
`startNewChat` reset, and afterwards the session cache holds the refreshed
list, which no longer contains the deleted identifier. -/
theorem remove_current_session_matches_new_chat
    (st : ChatState) (sid : String) (l : List Session)
    (hcur : st.currentSessionId = some sid)
    (hgone : sid ∉ l.map Session.id) :
    (removeSession st sid (.ok ()) (.ok l)).messages =
      (startNewChat st).messages ∧
    (removeSession st sid (.ok ()) (.ok l)).currentSessionId =
      (startNewChat st).currentSessionId ∧
    (removeSession st sid (.ok ()) (.ok l)).workspacePath =
      (startNewChat st).workspacePath ∧
    (removeSession st sid (.ok ()) (.ok l)).error =
      (startNewChat st).error ∧
    (removeSession st sid (.ok ()) (.ok l)).progress =
      (startNewChat st).progress ∧
    (removeSession st sid (.ok ()) (.ok l)).progressTimer =
      (startNewChat st).progressTimer ∧
    (removeSession st sid (.ok ()) (.ok l)).sessions = l ∧
    sid ∉ ((removeSession st sid (.ok ()) (.ok l)).sessions.map Session.id) := by
  unfold removeSession
  dsimp only
  rw [if_pos hcur.symm]
  refine ⟨rfl, rfl, rfl, rfl, rfl, rfl, rfl, ?_⟩
  simpa using hgone

/-- Witness for C9: deleting the only (current) session resets the local
state and leaves an empty refreshed cache. -/
theorem remove_current_session_witness :
    (removeSession { initChatState with currentSessionId := some "s1" }
        "s1" (.ok ()) (.ok [])).currentSessionId =
      (startNewChat { initChatState with currentSessionId := some "s1" }).currentSessionId ∧
    (removeSession { initChatState with currentSessionId := some "s1" }
        "s1" (.ok ()) (.ok [])).sessions = [] :=
  ⟨(remove_current_session_matches_new_chat _ "s1" [] rfl (by simp)).2.1,
   (remove_current_session_matches_new_chat _ "s1" [] rfl (by simp)).2.2.2.2.2.2.1⟩

/-! ## Claim theorems for the file-reference extractor -/

/-- All five buckets are duplicate-free. -/
def FilesNodup (fs : ExtractedFiles) : Prop :=
  fs.images.Nodup ∧ fs.reports.Nodup ∧ fs.data.Nodup ∧ fs.code.Nodup ∧
  fs.base64Images.Nodup

theorem pushUnique_nodup (xs : List String) (x : String) (h : xs.Nodup) :
    (pushUnique xs x).Nodup := by
  unfold pushUnique
  split
  · exact h
  · next hc =>
    have hx : x ∉ xs := by simpa using hc
    rw [List.nodup_append]
    exact ⟨h, List.nodup_singleton x,
      fun a ha hb => by simp at hb; subst hb; exact hx ha⟩

theorem bucketAdd_nodup (fs : ExtractedFiles) (p : String)
    (h : FilesNodup fs) : FilesNodup (bucketAdd fs p) := by
  obtain ⟨h1, h2, h3, h4, h5⟩ := h
  unfold bucketAdd
  dsimp only
  split_ifs
  · exact ⟨pushUnique_nodup _ _ h1, h2, h3, h4, h5⟩
  · exact ⟨h1, pushUnique_nodup _ _ h2, h3, h4, h5⟩
  · exact ⟨h1, h2, pushUnique_nodup _ _ h3, h4, h5⟩
  · exact ⟨h1, h2, h3, pushUnique_nodup _ _ h4, h5⟩
  · exact ⟨h1, h2, h3, h4, h5⟩

theorem processMatch_nodup (fs : ExtractedFiles) (raw : String)
    (h : FilesNodup fs) : FilesNodup (processMatch fs raw) := by
  unfold processMatch
  split
  · exact bucketAdd_nodup _ _ h
  · exact h

theorem foldl_processMatch_nodup (cands : List String) :
    ∀ fs, FilesNodup fs → FilesNodup (cands.foldl processMatch fs) := by
  induction cands with
  | nil => intro fs h; exact h
  | cons c rest ih => intro fs h; exact ih _ (processMatch_nodup fs c h)

theorem foldl_b64_nodup (ms : List String) :
    ∀ fs, FilesNodup fs →
      FilesNodup (ms.foldl
        (fun fs m => { fs with base64Images := pushUnique fs.base64Images m })
        fs) := by
  induction ms with
  | nil => intro fs h; exact h
  | cons m rest ih =>
    intro fs h
    obtain ⟨h1, h2, h3, h4, h5⟩ := h
    exact ih _ ⟨h1, h2, h3, h4, pushUnique_nodup _ _ h5⟩

/-- C7: `extractFilePaths` is a pure function of its input — two calls on
identical text give equal results — and deduplicates: every bucket is
duplicate-free, so a path matched by several pattern rules occurs at most
once in its bucket. -/
theorem extract_pure_idempotent_dedup (text : String) :
    extractFilePaths text = extractFilePaths text ∧
    (extractFilePaths text).images.Nodup ∧
    (extractFilePaths text).reports.Nodup ∧
    (extractFilePaths text).data.Nodup ∧
    (extractFilePaths text).code.Nodup ∧
    (extractFilePaths text).base64Images.Nodup ∧
    (∀ p, (extractFilePaths text).images.count p ≤ 1) ∧
    (∀ p, (extractFilePaths text).reports.count p ≤ 1) ∧
    (∀ p, (extractFilePaths text).data.count p ≤ 1) ∧
    (∀ p, (extractFilePaths text).code.count p ≤ 1) := by
  have hall : FilesNodup (extractFilePaths text) :=
    foldl_processMatch_nodup _ _
      (foldl_b64_nodup _ _
        ⟨List.nodup_nil, List.nodup_nil, List.nodup_nil, List.nodup_nil,
         List.nodup_nil⟩)
  obtain ⟨h1, h2, h3, h4, h5⟩ := hall
  exact ⟨rfl, h1, h2, h3, h4, h5,
    List.nodup_iff_count_le_one.mp h1, List.nodup_iff_count_le_one.mp h2,
    List.nodup_iff_count_le_one.mp h3, List.nodup_iff_count_le_one.mp h4⟩

/-- The example input of the spec: a backtick-quoted image path, a
"Saved to" report path, and an inline base64 data URI. -/
def c8Text : String :=
  "Saved to reports/summary.pdf and `output/chart.png` with data:image/png;base64,AAAA"

/-- C8: on the example text, extraction yields exactly the quoted image in
`images`, the saved report in `reports`, the data URI in `base64Images`,
and empty `data` and `code` buckets. -/
theorem extract_example_buckets :
    strContains c8Text "`output/chart.png`" = true ∧
    strContains c8Text "Saved to reports/summary.pdf" = true ∧
    strContains c8Text "data:image/png;base64,AAAA" = true ∧
    extractFilePaths c8Text =
      { images := ["output/chart.png"], reports := ["reports/summary.pdf"],
        data := [], code := [], base64Images := ["data:image/png;base64,AAAA"] } := by
  refine ⟨by decide, by decide, by decide, by decide⟩

/-! ## Claim theorems for workspace/repo path routing -/

theorem isPrefixL_iff (p : List Char) :
    ∀ s, isPrefixL p s = true ↔ ∃ t, s = p ++ t := by
  induction p with
  | nil => intro s; simp [isPrefixL]
  | cons a as ih =>
    intro s
    cases s with
    | nil => simp [isPrefixL]
    | cons b bs =>
      rw [isPrefixL]
      simp only [Bool.and_eq_true, beq_iff_eq, ih bs]
      constructor
      · rintro ⟨rfl, t, rfl⟩
        exact ⟨t, rfl⟩
      · rintro ⟨t, ht⟩
        injection ht with hb hrest
        exact ⟨hb.symm, t, hrest⟩

theorem isPrefixL_append_self (p t : List Char) : isPrefixL p (p ++ t) = true :=
  (isPrefixL_iff p (p ++ t)).mpr ⟨t, rfl⟩

theorem containsSubL_false_afterFirstSub (pat : List Char) :
    ∀ s, containsSubL s pat = false → afterFirstSub s pat = none := by
  intro s
  induction s with
  | nil => intro h; rfl
  | cons c rest ih =>
    intro h
    rw [containsSubL, Bool.or_eq_false_iff] at h
    rw [afterFirstSub, if_neg (by simp [h.1])]
    exact ih h.2

theorem afterFirstSub_some (pat : List Char) :
    ∀ s rel, afterFirstSub s pat = some rel → ∃ pre, s = pre ++ pat ++ rel := by
  intro s
  induction s with
  | nil =>
    intro rel h
    exact absurd h (by simp [afterFirstSub])
  | cons c rest ih =>
    intro rel h
    rw [afterFirstSub] at h
    by_cases hp : isPrefixL pat (c :: rest) = true
    · rw [if_pos hp] at h
      obtain ⟨t, ht⟩ := (isPrefixL_iff pat _).mp hp
      have hdrop : (c :: rest).drop pat.length = rel := Option.some.inj h
      rw [ht, List.drop_left] at hdrop
      refine ⟨[], ?_⟩
      rw [ht, hdrop]
      simp
    · rw [if_neg hp] at h
      obtain ⟨pre, hpre⟩ := ih rel h
      exact ⟨c :: pre, by rw [hpre]; rfl⟩

/-- C10: a matched candidate whose cleaned path contains `/workspaces/` is
bucketized only via the portion after a `/repo/` segment — when it has no
`/repo/` segment it is skipped entirely and affects no bucket — and,
independently, a path starting with the `repo/` prefix has that prefix
stripped exactly once (the remainder is kept verbatim, even when it starts
with `repo/` again). -/
theorem workspace_repo_routing :
    (∀ (raw : String) (fs : ExtractedFiles),
      strContains (cleanPath raw) "/workspaces/" = true →
      strContains (cleanPath raw) "/repo/" = false →
      routePath (cleanPath raw) = none ∧ processMatch fs raw = fs) ∧
    (∀ (fp out : String),
      strContains fp "/workspaces/" = true →
      routePath fp = some out →
      ∃ pre, fp.data = pre ++ "/repo/".data ++ out.data) ∧
    (∀ q : String,
      strContains ("repo/" ++ q) "/workspaces/" = false →
      routePath ("repo/" ++ q) = some q) := by
  refine ⟨?_, ?_, ?_⟩
  · intro raw fs hws hrep
    have hA : afterFirstSub (cleanPath raw).data ("/repo/".data) = none :=
      containsSubL_false_afterFirstSub _ _ hrep
    have hR : routePath (cleanPath raw) = none := by
      unfold routePath
      simp [hws, hA]
    exact ⟨hR, by unfold processMatch; rw [hR]⟩
  · intro fp out hws hroute
    unfold routePath at hroute
    rw [if_pos hws] at hroute
    cases hA : afterFirstSub fp.data ("/repo/".data) with
    | none => rw [hA] at hroute; simp at hroute
    | some rel =>
      rw [hA] at hroute
      dsimp only at hroute
      obtain ⟨pre, hpre⟩ := afterFirstSub_some _ _ _ hA
      by_cases hemp : rel.isEmpty
      · rw [if_pos hemp] at hroute; simp at hroute
      · rw [if_neg hemp] at hroute
        dsimp only at hroute
        by_cases hsw : strStartsWith (String.mk rel) "repo/" = true
        · rw [if_pos hsw] at hroute
          have hout : out = String.mk (rel.drop 5) := (Option.some.inj hroute).symm
          obtain ⟨t, ht⟩ := (isPrefixL_iff ("repo/".data) rel).mp hsw
          have hdrop : rel.drop 5 = t := by
            rw [ht]
            exact List.drop_left' (by decide)
          refine ⟨pre ++ ("/repo".data), ?_⟩
          rw [hpre, ht, hout, hdrop]
          have hsplit : ("/repo/".data) ++ ("repo/".data) =
              ("/repo".data) ++ ("/repo/".data) := by decide
          simp only [List.append_assoc]
          rw [← List.append_assoc ("/repo/".data), hsplit]
          simp [List.append_assoc]
        · rw [if_neg hsw] at hroute
          have hout : out = String.mk rel := (Option.some.inj hroute).symm
          exact ⟨pre, by rw [hpre, hout]⟩
  · intro q hnw
    unfold routePath
    rw [if_neg (by simp [hnw])]
    dsimp only
    have hsw : strStartsWith ("repo/" ++ q) "repo/" = true := by
      unfold strStartsWith
      rw [String.data_append]
      exact isPrefixL_append_self _ _
    rw [if_pos hsw]
    have hdrop : ("repo/" ++ q).data.drop 5 = q.data := by
      rw [String.data_append]
      exact List.drop_left' (by decide)
    rw [hdrop]

/-- Witness for C10: a workspace path without `/repo/` is dropped; a
workspace path with `/repo/` keeps only the part after it; a `repo/`
prefix is stripped exactly once. -/
theorem workspace_repo_routing_witness :
    processMatch emptyFiles "/workspaces/a/b.png" = emptyFiles ∧
    (∃ pre, ("/workspaces/a/repo/out/c.png" : String).data =
      pre ++ "/repo/".data ++ ("out/c.png" : String).data) ∧
    routePath ("repo/" ++ "repo/x.png") = some "repo/x.png" :=
  ⟨(workspace_repo_routing.1 "/workspaces/a/b.png" emptyFiles
      (by decide) (by decide)).2,
   workspace_repo_routing.2.1 "/workspaces/a/repo/out/c.png" "out/c.png"
      (by decide) (by decide),
   workspace_repo_routing.2.2 "repo/x.png" (by decide)⟩

end Chat
